import Mathlib

/-!
# Verification of the beach risk-scoring engine (`beaches.py`)

Shallow embedding of the scoring core of the sargassum-monitoring
repository: the haversine geodesy primitive (`haversine_km`), the
per-beach scorer (`_score_beach`), the risk classifier (`risk_label`),
and the batch score computer (`compute_beach_scores`), together with a
small model of the persistence layer's transactional behaviour.

Python floats are modelled as real numbers (idealised, exact
arithmetic); Python's decimal `round` (banker's rounding, round half to
even) is modelled exactly by `roundHalfEven`/`pyRound`.  Operations that
can raise in Python (`float()` on a non-convertible value, float
division by zero, `math.sqrt`/`math.asin` outside their domains) are
modelled as `Option`-returning functions, `none` meaning "raises".
-/

open Real

namespace Sargassum

/-- A Python value appearing as a coordinate inside a decoded
`positions_json` entry, abstracted by how `float()` treats it:
`num x` is any value `float()` converts to the number `x` (JSON numbers,
numeric strings, booleans); `nonNum` is any value `float()` raises on
(JSON `null`, non-numeric strings, arrays, objects). -/
inductive PyVal where
  | num (x : ℝ)
  | nonNum
deriving Inhabited

/-- Python `float(v)`: `some` of the numeric value, or `none` when
`float()` raises `ValueError`/`TypeError`. -/
def pyFloat : PyVal → Option ℝ
  | PyVal.num x => some x
  | PyVal.nonNum => none

/-! ## Geodesy primitive (`haversine_km`, beaches.py lines 68–76) -/

/-- `math.radians`: degrees to radians. -/
noncomputable def radians (x : ℝ) : ℝ := x * π / 180

/-- The intermediate value `a` of `haversine_km` (beaches.py lines 74–75):
`sin(dphi/2)**2 + cos(phi1)*cos(phi2)*sin(dlam/2)**2`. -/
noncomputable def hav_a (lat1 lon1 lat2 lon2 : ℝ) : ℝ :=
  sin (radians (lat2 - lat1) / 2) ^ 2
    + cos (radians lat1) * cos (radians lat2) * sin (radians (lon2 - lon1) / 2) ^ 2

/-- `haversine_km` (beaches.py line 76): `R * 2 * asin(sqrt(a))` with
`R = 6371.0`.  Total version, using Mathlib's total `Real.sqrt` and
`Real.arcsin`; `haversine_km_total` below proves that on every input the
exception-aware version agrees, so Python's partial `math.sqrt` and
`math.asin` never raise here. -/
noncomputable def haversine_km (lat1 lon1 lat2 lon2 : ℝ) : ℝ :=
  6371.0 * 2 * arcsin (sqrt (hav_a lat1 lon1 lat2 lon2))

/-- Python `math.sqrt`: raises `ValueError` on negative input. -/
noncomputable def pySqrt (x : ℝ) : Option ℝ :=
  if x < 0 then none else some (sqrt x)

/-- Python `math.asin`: raises `ValueError` outside `[-1, 1]`. -/
noncomputable def pyAsin (x : ℝ) : Option ℝ :=
  if x < -1 ∨ 1 < x then none else some (arcsin x)

/-- Exception-aware model of `haversine_km`: `none` iff `math.sqrt` or
`math.asin` would raise. -/
noncomputable def haversine_km? (lat1 lon1 lat2 lon2 : ℝ) : Option ℝ := do
  let s ← pySqrt (hav_a lat1 lon1 lat2 lon2)
  let t ← pyAsin s
  some (6371.0 * 2 * t)

/-- The haversine intermediate `a` rewritten through half-angle and
angle-difference identities. -/
lemma hav_a_formula (lat1 lon1 lat2 lon2 : ℝ) :
    hav_a lat1 lon1 lat2 lon2 =
      (1 - (sin (radians lat1) * sin (radians lat2)
        + cos (radians lat1) * cos (radians lat2) * cos (radians (lon2 - lon1)))) / 2 := by
  have h1 : radians (lat2 - lat1) = radians lat2 - radians lat1 := by
    unfold radians; ring
  have h2 : sin (radians (lat2 - lat1) / 2) ^ 2
      = 1 / 2 - cos (radians lat2 - radians lat1) / 2 := by
    rw [sin_sq_eq_half_sub]
    have : 2 * (radians (lat2 - lat1) / 2) = radians lat2 - radians lat1 := by
      rw [h1]; ring
    rw [this]
  have h3 : sin (radians (lon2 - lon1) / 2) ^ 2
      = 1 / 2 - cos (radians (lon2 - lon1)) / 2 := by
    rw [sin_sq_eq_half_sub]
    have : 2 * (radians (lon2 - lon1) / 2) = radians (lon2 - lon1) := by ring
    rw [this]
  unfold hav_a
  rw [h2, h3, cos_sub]
  ring

/-- The haversine intermediate `a` is nonnegative for all real inputs,
degenerate latitudes included. -/
lemma hav_a_nonneg (lat1 lon1 lat2 lon2 : ℝ) : 0 ≤ hav_a lat1 lon1 lat2 lon2 := by
  rw [hav_a_formula]
  set s1 := sin (radians lat1)
  set s2 := sin (radians lat2)
  set c1 := cos (radians lat1)
  set c2 := cos (radians lat2)
  set c := cos (radians (lon2 - lon1))
  have hc1 : c ≤ 1 := cos_le_one _
  have hc2 : -1 ≤ c := neg_one_le_cos _
  have p1 : s1 ^ 2 + c1 ^ 2 = 1 := sin_sq_add_cos_sq _
  have p2 : s2 ^ 2 + c2 ^ 2 = 1 := sin_sq_add_cos_sq _
  have h3 : 0 ≤ (1 - c) * (c1 + c2) ^ 2 :=
    mul_nonneg (by linarith) (sq_nonneg _)
  have h4 : 0 ≤ (1 + c) * (c1 - c2) ^ 2 :=
    mul_nonneg (by linarith) (sq_nonneg _)
  have h5 : 0 ≤ (s1 - s2) ^ 2 := sq_nonneg _
  nlinarith [h3, h4, h5, p1, p2]

/-- The haversine intermediate `a` never exceeds 1 for all real inputs. -/
lemma hav_a_le_one (lat1 lon1 lat2 lon2 : ℝ) : hav_a lat1 lon1 lat2 lon2 ≤ 1 := by
  rw [hav_a_formula]
  set s1 := sin (radians lat1)
  set s2 := sin (radians lat2)
  set c1 := cos (radians lat1)
  set c2 := cos (radians lat2)
  set c := cos (radians (lon2 - lon1))
  have hc1 : c ≤ 1 := cos_le_one _
  have hc2 : -1 ≤ c := neg_one_le_cos _
  have p1 : s1 ^ 2 + c1 ^ 2 = 1 := sin_sq_add_cos_sq _
  have p2 : s2 ^ 2 + c2 ^ 2 = 1 := sin_sq_add_cos_sq _
  have h3 : 0 ≤ (1 - c) * (c1 - c2) ^ 2 :=
    mul_nonneg (by linarith) (sq_nonneg _)
  have h4 : 0 ≤ (1 + c) * (c1 + c2) ^ 2 :=
    mul_nonneg (by linarith) (sq_nonneg _)
  have h5 : 0 ≤ (s1 + s2) ^ 2 := sq_nonneg _
  nlinarith [h3, h4, h5, p1, p2]

/-- The great-circle distance is nonnegative. -/
lemma haversine_km_nonneg (lat1 lon1 lat2 lon2 : ℝ) :
    0 ≤ haversine_km lat1 lon1 lat2 lon2 := by
  unfold haversine_km
  have h : 0 ≤ arcsin (sqrt (hav_a lat1 lon1 lat2 lon2)) :=
    arcsin_nonneg.mpr (sqrt_nonneg _)
  nlinarith [h]

/-- On every input the exception-aware haversine succeeds and equals the
total version. -/
lemma haversine_km?_eq_some (lat1 lon1 lat2 lon2 : ℝ) :
    haversine_km? lat1 lon1 lat2 lon2 = some (haversine_km lat1 lon1 lat2 lon2) := by
  have h0 : ¬ hav_a lat1 lon1 lat2 lon2 < 0 := not_lt.mpr (hav_a_nonneg _ _ _ _)
  have h1 : sqrt (hav_a lat1 lon1 lat2 lon2) ≤ 1 := by
    have := Real.sqrt_le_sqrt (hav_a_le_one lat1 lon1 lat2 lon2)
    simpa [Real.sqrt_one] using this
  have h2 : ¬ (sqrt (hav_a lat1 lon1 lat2 lon2) < -1 ∨ 1 < sqrt (hav_a lat1 lon1 lat2 lon2)) := by
    push_neg
    exact ⟨by nlinarith [sqrt_nonneg (hav_a lat1 lon1 lat2 lon2)], h1⟩
  simp [haversine_km?, pySqrt, pyAsin, h0, h2, haversine_km]

/-- C2: for every pair of input coordinates, latitudes outside
[-90, 90] included, `haversine_km` returns a value without raising:
the argument of `math.sqrt` is always nonnegative and the argument of
`math.asin` always lies in `[-1, 1]`, so the exception-aware model
always returns `some` of the total value. -/
theorem haversine_total_never_raises (lat1 lon1 lat2 lon2 : ℝ) :
    haversine_km? lat1 lon1 lat2 lon2 = some (haversine_km lat1 lon1 lat2 lon2) :=
  haversine_km?_eq_some lat1 lon1 lat2 lon2

/-! ## Python's `round` (banker's rounding, round half to even) -/

/-- Python's built-in `round(x)` to an integer: round to nearest, ties
to the even integer.  On a tie `x = k + 1/2` the result is `2⬝round(x/2)`,
which is the even one of `k`, `k+1`; off ties it is the usual nearest
integer. -/
noncomputable def roundHalfEven (x : ℝ) : ℤ :=
  if Int.fract x = 1 / 2 then 2 * round (x / 2) else round x

/-- Python's `round(x, n)` on floats, idealised over ℝ: decimal rounding
at `n` digits with ties to even. -/
noncomputable def pyRound (x : ℝ) (n : ℕ) : ℝ :=
  (roundHalfEven (x * 10 ^ n) : ℝ) / 10 ^ n

lemma roundHalfEven_eq (x : ℝ) (k : ℤ) (hlo : (k : ℝ) - 1 / 2 < x)
    (hhi : x < (k : ℝ) + 1 / 2) : roundHalfEven x = k := by
  have hfr : Int.fract x ≠ 1 / 2 := by
    intro h
    have hx : x = (⌊x⌋ : ℝ) + 1 / 2 := by
      have := Int.floor_add_fract x
      rw [h] at this
      linarith
    rw [hx] at hlo hhi
    have h1 : (⌊x⌋ : ℝ) < (k : ℝ) := by linarith
    have h2 : ((k : ℤ) : ℝ) - 1 < (⌊x⌋ : ℝ) := by push_cast; linarith
    have h1' : ⌊x⌋ < k := by exact_mod_cast h1
    have h2' : k - 1 < ⌊x⌋ := by exact_mod_cast (by push_cast at h2 ⊢; linarith : ((k - 1 : ℤ) : ℝ) < (⌊x⌋ : ℝ))
    omega
  rw [roundHalfEven, if_neg hfr, round_eq]
  rw [Int.floor_eq_iff]
  constructor
  · linarith
  · push_cast; linarith

lemma roundHalfEven_zero : roundHalfEven 0 = 0 :=
  roundHalfEven_eq 0 0 (by norm_num) (by norm_num)

lemma pyRound_zero (n : ℕ) : pyRound 0 n = 0 := by
  rw [pyRound, zero_mul, roundHalfEven_zero]
  simp

lemma round_mono_of_le {x y : ℝ} (h : x ≤ y) : round x ≤ round y := by
  rw [round_eq, round_eq]
  exact Int.floor_mono (by linarith)

/-- Banker's rounding is monotone. -/
lemma roundHalfEven_mono {x y : ℝ} (h : x ≤ y) : roundHalfEven x ≤ roundHalfEven y := by
  unfold roundHalfEven
  by_cases hx : Int.fract x = 1 / 2 <;> by_cases hy : Int.fract y = 1 / 2
  · rw [if_pos hx, if_pos hy]
    have : x / 2 ≤ y / 2 := by linarith
    have := round_mono_of_le this
    omega
  · rw [if_pos hx, if_neg hy]
    -- on a tie the half-even value is at most the half-up value
    have hxe : x = (⌊x⌋ : ℝ) + 1 / 2 := by
      have := Int.floor_add_fract x
      rw [hx] at this
      linarith
    have hb : (2 * round (x / 2) : ℝ) ≤ x + 1 := by
      have := round_le_add_half (x / 2)
      push_cast
      linarith
    have hle : 2 * round (x / 2) ≤ ⌊x⌋ + 1 := by
      by_contra hcon
      push_neg at hcon
      have hcast : ((⌊x⌋ + 2 : ℤ) : ℝ) ≤ ((2 * round (x / 2) : ℤ) : ℝ) := by
        exact_mod_cast (by omega : (⌊x⌋ + 2 : ℤ) ≤ 2 * round (x / 2))
      push_cast at hcast
      linarith
    have hrx : round x = ⌊x⌋ + 1 := by
      rw [round_eq]
      have harg : x + 1 / 2 = ((⌊x⌋ + 1 : ℤ) : ℝ) := by push_cast; linarith
      rw [harg, Int.floor_intCast]
    have := round_mono_of_le h
    omega
  · rw [if_neg hx, if_pos hy]
    have hye : y = (⌊y⌋ : ℝ) + 1 / 2 := by
      have := Int.floor_add_fract y
      rw [hy] at this
      linarith
    -- the half-even value on a tie is at least the floor
    have hb : (y : ℝ) - 1 ≤ (2 * round (y / 2) : ℝ) := by
      have h1 : |y / 2 - round (y / 2)| ≤ 1 / 2 := abs_sub_round (y / 2)
      have h2 : y / 2 - round (y / 2) ≤ 1 / 2 := (abs_le.mp h1).2
      push_cast
      linarith
    have hge : ⌊y⌋ ≤ 2 * round (y / 2) := by
      by_contra hcon
      push_neg at hcon
      have hcast : ((2 * round (y / 2) : ℤ) : ℝ) ≤ ((⌊y⌋ - 1 : ℤ) : ℝ) := by
        exact_mod_cast (by omega : (2 * round (y / 2) : ℤ) ≤ ⌊y⌋ - 1)
      push_cast at hcast
      linarith
    -- x is not a tie and x ≤ y, so x < y and round x ≤ ⌊y⌋
    have hxy : x < y := by
      rcases lt_or_eq_of_le h with h' | h'
      · exact h'
      · exfalso; rw [h'] at hx; exact hx hy
    have hrx : round x ≤ ⌊y⌋ := by
      rw [round_eq]
      have : ⌊x + 1 / 2⌋ < ⌊y⌋ + 1 := by
        apply Int.floor_lt.mpr
        push_cast
        rw [hye] at hxy
        linarith
      omega
    omega
  · rw [if_neg hx, if_neg hy]
    exact round_mono_of_le h

lemma pyRound_mono {x y : ℝ} (n : ℕ) (h : x ≤ y) : pyRound x n ≤ pyRound y n := by
  unfold pyRound
  have hp : (0 : ℝ) < 10 ^ n := by positivity
  have hr : ((roundHalfEven (x * 10 ^ n) : ℤ) : ℝ) ≤ ((roundHalfEven (y * 10 ^ n) : ℤ) : ℝ) := by
    exact_mod_cast roundHalfEven_mono (mul_le_mul_of_nonneg_right h (le_of_lt hp))
  exact (div_le_div_right hp).mpr hr

lemma pyRound_eq (x : ℝ) (n : ℕ) (k : ℤ) (hlo : (k : ℝ) - 1 / 2 < x * 10 ^ n)
    (hhi : x * 10 ^ n < (k : ℝ) + 1 / 2) : pyRound x n = (k : ℝ) / 10 ^ n := by
  rw [pyRound, roundHalfEven_eq (x * 10 ^ n) k hlo hhi]

/-! ## Per-beach scorer (`_score_beach`, beaches.py lines 81–138) -/

/-- `REGIONAL_SIGMA` (beaches.py line 39). -/
noncomputable def REGIONAL_SIGMA : ℝ := 50.0

/-- The scorer's loop accumulator (beaches.py lines 105–108):
`sample_count`, `local_gauss_sum`, `reg_gauss_sum`, and `min_dist`
where `none` models the initial `math.inf`. -/
structure LoopState where
  sample_count : ℕ
  local_gauss_sum : ℝ
  reg_gauss_sum : ℝ
  min_dist : Option ℝ

/-- Initial accumulator: `0, 0.0, 0.0, math.inf`. -/
def initState : LoopState := ⟨0, 0, 0, none⟩

/-- `if d < min_dist: min_dist = d` (beaches.py lines 115–116), with
`none` playing `math.inf`. -/
noncomputable def updMin : Option ℝ → ℝ → Option ℝ
  | none, d => some d
  | some m, d => some (if d < m then d else m)

/-- One iteration of the scorer's loop body (beaches.py lines 110–122)
on an entry whose first two elements converted to the floats `x = pt[0]`
(longitude) and `y = pt[1]` (latitude); total idealisation that skips
entries the exception-aware `stepEntry?` below raises on. -/
noncomputable def stepEntryT (beach_lat beach_lon radius_km : ℝ)
    (st : LoopState) (pt : List PyVal) : LoopState :=
  match pt with
  | PyVal.num x :: PyVal.num y :: _ =>
      let d := haversine_km beach_lat beach_lon y x
      { sample_count := if d ≤ radius_km then st.sample_count + 1 else st.sample_count
        local_gauss_sum := st.local_gauss_sum + Real.exp (-(0.5) * (d / radius_km) ^ 2)
        reg_gauss_sum := st.reg_gauss_sum + Real.exp (-(0.5) * (d / REGIONAL_SIGMA) ^ 2)
        min_dist := updMin st.min_dist d }
  | _ => st

/-- Exception-aware loop body (beaches.py lines 110–122): entries with
fewer than 2 elements are skipped (`continue`); `float(pt[1])` is
evaluated before `float(pt[0])` and a non-convertible value raises
(`none`); with a valid entry, `d / radius_km` at `radius_km = 0` raises
`ZeroDivisionError` (`none`). -/
noncomputable def stepEntry? (beach_lat beach_lon radius_km : ℝ)
    (st : LoopState) (pt : List PyVal) : Option LoopState :=
  match pt with
  | [] => some st
  | [_] => some st
  | v0 :: v1 :: _ =>
      match pyFloat v1 with
      | none => none
      | some y =>
          match pyFloat v0 with
          | none => none
          | some x =>
              if radius_km = 0 then none
              else
                let d := haversine_km beach_lat beach_lon y x
                some { sample_count := if d ≤ radius_km then st.sample_count + 1 else st.sample_count
                       local_gauss_sum := st.local_gauss_sum + Real.exp (-(0.5) * (d / radius_km) ^ 2)
                       reg_gauss_sum := st.reg_gauss_sum + Real.exp (-(0.5) * (d / REGIONAL_SIGMA) ^ 2)
                       min_dist := updMin st.min_dist d }

/-- The scorer's `for pt in positions` loop, exception-aware. -/
noncomputable def scoreLoop? (beach_lat beach_lon radius_km : ℝ) :
    List (List PyVal) → LoopState → Option LoopState
  | [], st => some st
  | pt :: ps, st =>
      match stepEntry? beach_lat beach_lon radius_km st pt with
      | none => none
      | some st' => scoreLoop? beach_lat beach_lon radius_km ps st'

/-- The scorer's loop, total idealisation. -/
noncomputable def scoreLoopT (beach_lat beach_lon radius_km : ℝ) :
    List (List PyVal) → LoopState → LoopState
  | [], st => st
  | pt :: ps, st =>
      scoreLoopT beach_lat beach_lon radius_km ps (stepEntryT beach_lat beach_lon radius_km st pt)

/-- The scorer's result record (beaches.py lines 131–138). -/
structure ScoreResult where
  sample_count : ℕ
  est_count : ℝ
  local_score : ℝ
  regional_score : ℝ
  closest_km : Option ℝ
  density_km2 : ℝ

/-- Post-loop finalisation (beaches.py lines 124–138): rounds, maps the
infinite minimum to `None`, and guards the density division.  `rho` is
the extrapolation factor the source calls `ratio`. -/
noncomputable def finalizeScore (radius_km rho : ℝ) (st : LoopState) : ScoreResult :=
  let est_count := pyRound ((st.sample_count : ℝ) * rho) 2
  let catchment_area := π * radius_km ^ 2
  { sample_count := st.sample_count
    est_count := est_count
    local_score := pyRound (st.local_gauss_sum * rho) 3
    regional_score := pyRound (st.reg_gauss_sum * rho) 3
    closest_km := st.min_dist.map (fun m => pyRound m 2)
    density_km2 := if 0 < catchment_area then pyRound (est_count / catchment_area) 6 else 0 }

/-- `_score_beach` (beaches.py lines 81–138), exception-aware: `none`
when the Python function raises. -/
noncomputable def score_beach? (positions : List (List PyVal))
    (beach_lat beach_lon radius_km rho : ℝ) : Option ScoreResult :=
  (scoreLoop? beach_lat beach_lon radius_km positions initState).map
    (finalizeScore radius_km rho)

/-- `_score_beach`, total idealisation; `score_beach?_eq_some` shows it
is the value of `score_beach?` whenever no exception occurs. -/
noncomputable def score_beachT (positions : List (List PyVal))
    (beach_lat beach_lon radius_km rho : ℝ) : ScoreResult :=
  finalizeScore radius_km rho (scoreLoopT beach_lat beach_lon radius_km positions initState)

/-- An entry the loop body provably never raises on: too short (skipped)
or starting with two `float()`-convertible values. -/
def EntryOk (pt : List PyVal) : Prop :=
  pt.length < 2 ∨ ∃ x y rest, pt = PyVal.num x :: PyVal.num y :: rest

lemma stepEntry?_short (beach_lat beach_lon radius_km : ℝ) (st : LoopState)
    (pt : List PyVal) (h : pt.length < 2) :
    stepEntry? beach_lat beach_lon radius_km st pt = some st := by
  match pt with
  | [] => rfl
  | [_] => rfl
  | _ :: _ :: _ => exfalso; simp at h; omega

lemma stepEntry?_eq_some (beach_lat beach_lon radius_km : ℝ) (st : LoopState)
    (pt : List PyVal) (hok : EntryOk pt) (hrad : radius_km ≠ 0) :
    stepEntry? beach_lat beach_lon radius_km st pt
      = some (stepEntryT beach_lat beach_lon radius_km st pt) := by
  rcases hok with hshort | ⟨x, y, rest, rfl⟩
  · match pt with
    | [] => rfl
    | [v] => cases v <;> rfl
    | _ :: _ :: _ => exfalso; simp at hshort; omega
  · simp [stepEntry?, stepEntryT, pyFloat, hrad]

lemma scoreLoop?_eq_some (beach_lat beach_lon radius_km : ℝ)
    (l : List (List PyVal)) (hok : ∀ pt ∈ l, EntryOk pt) (hrad : radius_km ≠ 0) :
    ∀ st, scoreLoop? beach_lat beach_lon radius_km l st
      = some (scoreLoopT beach_lat beach_lon radius_km l st) := by
  induction l with
  | nil => intro st; rfl
  | cons pt ps ih =>
      intro st
      have h1 := stepEntry?_eq_some beach_lat beach_lon radius_km st pt
        (hok pt (List.mem_cons_self pt ps)) hrad
      rw [scoreLoop?, h1, scoreLoopT]
      exact ih (fun q hq => hok q (List.mem_cons_of_mem pt hq)) _

lemma score_beach?_eq_some (positions : List (List PyVal))
    (beach_lat beach_lon radius_km rho : ℝ)
    (hok : ∀ pt ∈ positions, EntryOk pt) (hrad : radius_km ≠ 0) :
    score_beach? positions beach_lat beach_lon radius_km rho
      = some (score_beachT positions beach_lat beach_lon radius_km rho) := by
  rw [score_beach?, scoreLoop?_eq_some beach_lat beach_lon radius_km positions hok hrad,
    Option.map_some', score_beachT]

lemma scoreLoop?_allShort (beach_lat beach_lon radius_km : ℝ)
    (l : List (List PyVal)) (h : ∀ pt ∈ l, pt.length < 2) :
    ∀ st, scoreLoop? beach_lat beach_lon radius_km l st = some st := by
  induction l with
  | nil => intro st; rfl
  | cons pt ps ih =>
      intro st
      rw [scoreLoop?, stepEntry?_short beach_lat beach_lon radius_km st pt
        (h pt (List.mem_cons_self pt ps))]
      exact ih (fun q hq => h q (List.mem_cons_of_mem pt hq)) st

/-! ## Risk classifier (`risk_label`, beaches.py lines 141–149) -/

/-- The `RISK_THRESHOLDS` dict (beaches.py line 47). -/
structure RiskThresholds where
  low : ℝ
  medium : ℝ
  high : ℝ

/-- `RISK_THRESHOLDS = {"low": 5.0, "medium": 25.0, "high": 75.0}`. -/
noncomputable def RISK_THRESHOLDS : RiskThresholds := ⟨5.0, 25.0, 75.0⟩

/-- `risk_label` (beaches.py lines 141–149). -/
noncomputable def risk_label (regional_score : ℝ) : String :=
  if RISK_THRESHOLDS.high ≤ regional_score then "high"
  else if RISK_THRESHOLDS.medium ≤ regional_score then "medium"
  else if RISK_THRESHOLDS.low ≤ regional_score then "low"
  else "none"

/-- Ordinal rank of the four risk labels in the order
none < low < medium < high, used to state monotonicity of the
classifier. -/
def riskRank (s : String) : ℕ :=
  if s = "none" then 0 else if s = "low" then 1 else if s = "medium" then 2 else 3

/-! ## Static beach catalogue and day offsets (beaches.py lines 38, 52–63) -/

/-- One entry of the `BEACHES` list. -/
structure Beach where
  name : String
  lat : ℝ
  lon : ℝ
  radius_km : ℝ

/-- The `BEACHES` constant (beaches.py lines 52–63). -/
noncomputable def BEACHES : List Beach :=
  [ ⟨"Flamands",         17.9067, -62.8467, 3.0⟩,
    ⟨"Colombier",        17.9033, -62.8600, 2.0⟩,
    ⟨"Saint-Jean",       17.9000, -62.8267, 4.0⟩,
    ⟨"Lorient",          17.9000, -62.8100, 3.0⟩,
    ⟨"Grand_Cul-de-Sac", 17.9117, -62.7917, 3.0⟩,
    ⟨"Petit_Cul-de-Sac", 17.9067, -62.7967, 2.0⟩,
    ⟨"Toiny",            17.8933, -62.7817, 2.0⟩,
    ⟨"Gouverneur",       17.8717, -62.8433, 3.0⟩,
    ⟨"Grande_Saline",    17.8717, -62.8267, 3.0⟩,
    ⟨"Marigot",          17.9033, -62.8067, 2.0⟩ ]

/-- `DAY_OFFSETS = [0, 1, 2, 3]` (beaches.py line 38). -/
def DAY_OFFSETS : List ℤ := [0, 1, 2, 3]

/-! ## Decomposition of the scorer loop into per-entry contributions -/

/-- The contribution of one entry to `local_gauss_sum`:
`exp(-0.5⬝(d/radius_km)²)` for a valid entry, 0 for a skipped one. -/
noncomputable def entryLocal (beach_lat beach_lon radius_km : ℝ) : List PyVal → ℝ
  | PyVal.num x :: PyVal.num y :: _ =>
      Real.exp (-(0.5) * (haversine_km beach_lat beach_lon y x / radius_km) ^ 2)
  | _ => 0

/-- The contribution of one entry to `reg_gauss_sum`:
`exp(-0.5⬝(d/50)²)` for a valid entry, 0 for a skipped one. -/
noncomputable def entryReg (beach_lat beach_lon : ℝ) : List PyVal → ℝ
  | PyVal.num x :: PyVal.num y :: _ =>
      Real.exp (-(0.5) * (haversine_km beach_lat beach_lon y x / REGIONAL_SIGMA) ^ 2)
  | _ => 0

lemma stepEntryT_local (beach_lat beach_lon radius_km : ℝ) (st : LoopState)
    (pt : List PyVal) :
    (stepEntryT beach_lat beach_lon radius_km st pt).local_gauss_sum
      = st.local_gauss_sum + entryLocal beach_lat beach_lon radius_km pt := by
  match pt with
  | [] => simp [stepEntryT, entryLocal]
  | [v] => cases v <;> simp [stepEntryT, entryLocal]
  | PyVal.num x :: PyVal.num y :: rest => simp [stepEntryT, entryLocal]
  | PyVal.num x :: PyVal.nonNum :: rest => simp [stepEntryT, entryLocal]
  | PyVal.nonNum :: w :: rest => simp [stepEntryT, entryLocal]

lemma stepEntryT_reg (beach_lat beach_lon radius_km : ℝ) (st : LoopState)
    (pt : List PyVal) :
    (stepEntryT beach_lat beach_lon radius_km st pt).reg_gauss_sum
      = st.reg_gauss_sum + entryReg beach_lat beach_lon pt := by
  match pt with
  | [] => simp [stepEntryT, entryReg]
  | [v] => cases v <;> simp [stepEntryT, entryReg]
  | PyVal.num x :: PyVal.num y :: rest => simp [stepEntryT, entryReg]
  | PyVal.num x :: PyVal.nonNum :: rest => simp [stepEntryT, entryReg]
  | PyVal.nonNum :: w :: rest => simp [stepEntryT, entryReg]

lemma scoreLoopT_local (beach_lat beach_lon radius_km : ℝ) (l : List (List PyVal)) :
    ∀ st, (scoreLoopT beach_lat beach_lon radius_km l st).local_gauss_sum
      = st.local_gauss_sum + (l.map (entryLocal beach_lat beach_lon radius_km)).sum := by
  induction l with
  | nil => intro st; simp [scoreLoopT]
  | cons pt ps ih =>
      intro st
      rw [scoreLoopT, ih, stepEntryT_local]
      simp
      ring

lemma scoreLoopT_reg (beach_lat beach_lon radius_km : ℝ) (l : List (List PyVal)) :
    ∀ st, (scoreLoopT beach_lat beach_lon radius_km l st).reg_gauss_sum
      = st.reg_gauss_sum + (l.map (entryReg beach_lat beach_lon)).sum := by
  induction l with
  | nil => intro st; simp [scoreLoopT]
  | cons pt ps ih =>
      intro st
      rw [scoreLoopT, ih, stepEntryT_reg]
      simp
      ring

/-- Finalising the untouched initial accumulator yields the all-zero
result with a `null` closest distance, for any radius and any ratio. -/
lemma finalizeScore_init (radius_km rho : ℝ) :
    finalizeScore radius_km rho initState =
      ⟨0, 0, 0, 0, none, 0⟩ := by
  unfold finalizeScore initState
  simp [pyRound_zero]

/-! ## Batch score computer (`compute_beach_scores`, beaches.py lines 201–273)

The `drift_predictions` table is modelled as a list of `DriftRow`
records (nullable columns as `Option`); `positions_json` is modelled
post-parsing: `none` stands for SQL `NULL`, the empty string or
unparseable JSON, all of which the code turns into `[]`
(beaches.py lines 241–244).  The function returns the list of rows it
inserts into `beach_risk_scores` together with its Python return value
(the row count); `none` models an uncaught exception escaping from
`_score_beach`. -/

/-- One row of the external `drift_predictions` table (the columns
`compute_beach_scores` reads). -/
structure DriftRow where
  simulated_at : String
  day_offset : ℤ
  positions_json : Option (List (List PyVal))
  n_particles : Option ℤ
  active_fraction : Option ℝ

/-- One row inserted into `beach_risk_scores` (beaches.py lines 252–260). -/
structure ScoreRow where
  computed_at : String
  simulated_at : String
  beach_name : String
  beach_lat : ℝ
  beach_lon : ℝ
  radius_km : ℝ
  day_offset : ℤ
  sample_count : ℕ
  n_sample : ℕ
  n_active : ℤ
  n_particles : ℤ
  est_count : ℝ
  local_score : ℝ
  regional_score : ℝ
  closest_km : Option ℝ
  density_km2 : ℝ
  risk_level : String

/-- The `WHERE simulated_at = ? AND day_offset IN (0,1,2,3)` selection
(beaches.py lines 219–225), before the `ORDER BY day_offset`. -/
def selectedSnaps (drift : List DriftRow) (m : String) : List DriftRow :=
  drift.filter (fun r => decide (r.simulated_at = m) && decide (r.day_offset ∈ DAY_OFFSETS))

/-- The rows one snapshot contributes (beaches.py lines 235–260):
`n_particles or 0`, `active_fraction or 0.0`,
`n_active = int(round(n_particles * act_frac))`,
`ratio = n_active / n_sample if n_sample > 0 else 0.0`, then one row per
beach in catalogue order; `none` when `_score_beach` raises. -/
noncomputable def snapRows (t m : String) (snap : DriftRow) : Option (List ScoreRow) :=
  let nP : ℤ := snap.n_particles.getD 0
  let act_frac : ℝ := snap.active_fraction.getD 0
  let n_active : ℤ := roundHalfEven ((nP : ℝ) * act_frac)
  let positions := snap.positions_json.getD []
  let n_sample := positions.length
  let rho : ℝ := if 0 < n_sample then (n_active : ℝ) / (n_sample : ℝ) else 0
  BEACHES.mapM (fun b =>
    (score_beach? positions b.lat b.lon b.radius_km rho).map (fun s =>
      { computed_at := t
        simulated_at := m
        beach_name := b.name
        beach_lat := b.lat
        beach_lon := b.lon
        radius_km := b.radius_km
        day_offset := snap.day_offset
        sample_count := s.sample_count
        n_sample := n_sample
        n_active := n_active
        n_particles := nP
        est_count := s.est_count
        local_score := s.local_score
        regional_score := s.regional_score
        closest_km := s.closest_km
        density_km2 := s.density_km2
        risk_level := risk_label s.regional_score }))

/-- `compute_beach_scores` (beaches.py lines 201–273).  `computed_at`
is passed in (the code takes `datetime.now(utc)`).  Returns the rows
staged for the single batch insert and the function's return value;
`some ([], 0)` models the early no-simulation / no-snapshot exits
(including the falsy empty-string `max_sim`), `none` an uncaught
exception from `_score_beach`. -/
noncomputable def compute_beach_scores (drift : List DriftRow) (computed_at : String) :
    Option (List ScoreRow × ℕ) :=
  match (drift.map (fun r => r.simulated_at)).max? with
  | none => some ([], 0)
  | some m =>
      if m = "" then some ([], 0)
      else
        let snaps := List.insertionSort
          (fun a b => a.day_offset ≤ b.day_offset) (selectedSnaps drift m)
        if snaps.isEmpty then some ([], 0)
        else
          (snaps.mapM (snapRows computed_at m)).map (fun ls =>
            (ls.flatten, ls.flatten.length))

/-! ## Persistence model: staged writes become visible only at commit

`compute_beach_scores` stages all rows with a single `executemany` and
then issues a single `conn.commit()` (beaches.py lines 262–271); there
is no intermediate commit.  SQLite's transactional semantics are
modelled as the event trace below: an `insertRow` adds to the open
transaction's staging area, `commit` atomically appends the staged rows
to the committed table, and an interruption discards the staging
area, leaving only the committed prefix visible to readers. -/

inductive DBEvent (α : Type) where
  | insertRow (row : α)
  | commit

/-- The persistence trace of the batch insert of `compute_beach_scores`
(beaches.py lines 262–271): every staged row, then one final commit. -/
def persistTrace {α : Type} (rows : List α) : List (DBEvent α) :=
  rows.map DBEvent.insertRow ++ [DBEvent.commit]

/-- Effect of one event on `(committed table, staging area)`. -/
def applyEvent {α : Type} (s : List α × List α) : DBEvent α → List α × List α
  | DBEvent.insertRow r => (s.1, s.2 ++ [r])
  | DBEvent.commit => (s.1 ++ s.2, [])

/-- The committed table a reader sees if execution stops after the
events `es`: staged-but-uncommitted rows are invisible (rolled back). -/
def committedAfter {α : Type} (old : List α) (es : List (DBEvent α)) : List α :=
  (es.foldl applyEvent (old, [])).1

lemma foldl_insertRows {α : Type} (l : List α) :
    ∀ c st : List α, List.foldl applyEvent (c, st) (l.map DBEvent.insertRow)
      = (c, st ++ l) := by
  induction l with
  | nil => intro c st; simp
  | cons r rs ih =>
      intro c st
      simp only [List.map_cons, List.foldl_cons, applyEvent]
      rw [ih]
      simp

/-! ## Risk classifier lemmas -/

lemma risk_label_eq_high_iff (x : ℝ) : risk_label x = "high" ↔ 75 ≤ x := by
  unfold risk_label RISK_THRESHOLDS
  split_ifs with h1 h2 h3 <;> simp <;> linarith

lemma risk_label_eq_medium_iff (x : ℝ) : risk_label x = "medium" ↔ 25 ≤ x ∧ x < 75 := by
  unfold risk_label RISK_THRESHOLDS
  split_ifs with h1 h2 h3 <;> simp <;> intros <;>
    first | linarith | constructor <;> linarith

lemma risk_label_eq_low_iff (x : ℝ) : risk_label x = "low" ↔ 5 ≤ x ∧ x < 25 := by
  unfold risk_label RISK_THRESHOLDS
  split_ifs with h1 h2 h3 <;> simp <;> intros <;>
    first | linarith | constructor <;> linarith

lemma risk_label_eq_none_iff (x : ℝ) : risk_label x = "none" ↔ x < 5 := by
  unfold risk_label RISK_THRESHOLDS
  split_ifs with h1 h2 h3 <;> simp <;> linarith

lemma risk_label_total (x : ℝ) :
    risk_label x = "none" ∨ risk_label x = "low"
      ∨ risk_label x = "medium" ∨ risk_label x = "high" := by
  unfold risk_label RISK_THRESHOLDS
  split_ifs <;> simp

lemma riskRank_risk_label (x : ℝ) :
    riskRank (risk_label x)
      = if 75 ≤ x then 3 else if 25 ≤ x then 2 else if 5 ≤ x then 1 else 0 := by
  by_cases h75 : 75 ≤ x
  · rw [(risk_label_eq_high_iff x).mpr h75, if_pos h75]
    simp [riskRank]
  · by_cases h25 : 25 ≤ x
    · rw [(risk_label_eq_medium_iff x).mpr ⟨h25, by linarith⟩, if_neg h75, if_pos h25]
      simp [riskRank]
    · by_cases h5 : 5 ≤ x
      · rw [(risk_label_eq_low_iff x).mpr ⟨h5, by linarith⟩, if_neg h75, if_neg h25, if_pos h5]
        simp [riskRank]
      · rw [(risk_label_eq_none_iff x).mpr (by linarith), if_neg h75, if_neg h25, if_neg h5]
        simp [riskRank]

lemma risk_label_mono {x y : ℝ} (h : x ≤ y) :
    riskRank (risk_label x) ≤ riskRank (risk_label y) := by
  rw [riskRank_risk_label, riskRank_risk_label]
  split_ifs <;> first | omega | linarith

/-- C5: `risk_label` maps every regional score to exactly one of the
four labels with the fixed thresholds "high" iff score ≥ 75, "medium"
iff 25 ≤ score < 75, "low" iff 5 ≤ score < 25, "none" iff score < 5;
the six boundary values behave as claimed, the function is total, and
it is monotone non-decreasing (labels ranked none < low < medium <
high). -/
theorem risk_label_spec :
    (∀ x : ℝ, risk_label x = "high" ↔ 75 ≤ x)
  ∧ (∀ x : ℝ, risk_label x = "medium" ↔ 25 ≤ x ∧ x < 75)
  ∧ (∀ x : ℝ, risk_label x = "low" ↔ 5 ≤ x ∧ x < 25)
  ∧ (∀ x : ℝ, risk_label x = "none" ↔ x < 5)
  ∧ (∀ x : ℝ, risk_label x = "none" ∨ risk_label x = "low"
      ∨ risk_label x = "medium" ∨ risk_label x = "high")
  ∧ risk_label (4.999 : ℝ) = "none"
  ∧ risk_label (5.0 : ℝ) = "low"
  ∧ risk_label (24.999 : ℝ) = "low"
  ∧ risk_label (25.0 : ℝ) = "medium"
  ∧ risk_label (74.999 : ℝ) = "medium"
  ∧ risk_label (75.0 : ℝ) = "high"
  ∧ (∀ x y : ℝ, x ≤ y → riskRank (risk_label x) ≤ riskRank (risk_label y)) :=
  ⟨risk_label_eq_high_iff, risk_label_eq_medium_iff, risk_label_eq_low_iff,
   risk_label_eq_none_iff, risk_label_total,
   (risk_label_eq_none_iff _).mpr (by norm_num),
   (risk_label_eq_low_iff _).mpr (by norm_num),
   (risk_label_eq_low_iff _).mpr (by norm_num),
   (risk_label_eq_medium_iff _).mpr (by norm_num),
   (risk_label_eq_medium_iff _).mpr (by norm_num),
   (risk_label_eq_high_iff _).mpr (by norm_num),
   fun _ _ h => risk_label_mono h⟩

/-- Witness for C5: the monotonicity conjunct applied at 3 ≤ 80. -/
theorem risk_label_spec_witness :
    (3 : ℝ) ≤ 80 ∧ riskRank (risk_label 3) ≤ riskRank (risk_label 80) :=
  ⟨by norm_num,
   risk_label_spec.2.2.2.2.2.2.2.2.2.2.2 3 80 (by norm_num)⟩

/-! ## Scorer theorems: empty and degenerate samples -/

/-- C6: on the empty positions list the scorer succeeds and returns
`sample_count = 0`, `est_count = 0`, `local_score = 0`,
`regional_score = 0`, `closest_km = None`, `density_km2 = 0`, for every
beach, `radius_km > 0` and ratio. -/
theorem score_beach_empty (beach_lat beach_lon radius_km rho : ℝ)
    (hrad : 0 < radius_km) :
    score_beach? [] beach_lat beach_lon radius_km rho
      = some ⟨0, 0, 0, 0, none, 0⟩ := by
  unfold score_beach? scoreLoop?
  rw [Option.map_some', finalizeScore_init]

/-- Witness for C6 at the Flamands beach geometry with ratio 10. -/
theorem score_beach_empty_witness :
    (0 : ℝ) < 3 ∧ score_beach? [] 17.9067 (-62.8467) 3 10 = some ⟨0, 0, 0, 0, none, 0⟩ :=
  ⟨by norm_num, score_beach_empty 17.9067 (-62.8467) 3 10 (by norm_num)⟩

/-- C10: a non-empty positions list none of whose entries has at least
2 elements yields exactly the empty-list result: all-zero scores and a
`null` closest distance. -/
theorem score_beach_all_short (positions : List (List PyVal))
    (beach_lat beach_lon radius_km rho : ℝ)
    (hne : positions ≠ []) (hshort : ∀ pt ∈ positions, pt.length < 2)
    (hrad : 0 < radius_km) :
    score_beach? positions beach_lat beach_lon radius_km rho
        = some ⟨0, 0, 0, 0, none, 0⟩
      ∧ score_beach? positions beach_lat beach_lon radius_km rho
        = score_beach? [] beach_lat beach_lon radius_km rho := by
  have h1 : score_beach? positions beach_lat beach_lon radius_km rho
      = some ⟨0, 0, 0, 0, none, 0⟩ := by
    unfold score_beach?
    rw [scoreLoop?_allShort beach_lat beach_lon radius_km positions hshort initState,
      Option.map_some', finalizeScore_init]
  refine ⟨h1, ?_⟩
  rw [h1, score_beach_empty beach_lat beach_lon radius_km rho hrad]

/-- Witness for C10: one malformed singleton entry. -/
theorem score_beach_all_short_witness :
    ([[PyVal.num 1]] ≠ ([] : List (List PyVal)))
      ∧ (∀ pt ∈ [[PyVal.num 1]], pt.length < 2)
      ∧ (0 : ℝ) < 3
      ∧ (score_beach? [[PyVal.num 1]] 17.9 (-62.85) 3 10 = some ⟨0, 0, 0, 0, none, 0⟩
          ∧ score_beach? [[PyVal.num 1]] 17.9 (-62.85) 3 10
            = score_beach? [] 17.9 (-62.85) 3 10) :=
  ⟨by simp, by simp, by norm_num,
   score_beach_all_short [[PyVal.num 1]] 17.9 (-62.85) 3 10 (by simp) (by simp) (by norm_num)⟩

/-- C1 counterexample: with `radius_km = 0` and a single valid entry at
the beach centroid, `_score_beach` raises `ZeroDivisionError` at the
Gaussian bandwidth division `d / radius_km` (beaches.py line 121) — it
does not succeed with a zero density. -/
theorem score_beach_zero_radius_raises :
    score_beach? [[PyVal.num 0, PyVal.num 0]] 0 0 0 1 = none := by
  unfold score_beach? scoreLoop? stepEntry? pyFloat
  simp

/-- C1 amended: with `radius_km = 0`, on any positions list whose
entries all have fewer than 2 elements (so the loop body never runs),
the scorer succeeds and `density_km2` is 0 — the zero-area catchment
division at beaches.py line 129 is guarded.  With any valid entry, the
unguarded `d / radius_km` at line 121 raises instead
(`score_beach_zero_radius_raises`). -/
theorem score_beach_zero_radius_no_valid (positions : List (List PyVal))
    (beach_lat beach_lon rho : ℝ) (hshort : ∀ pt ∈ positions, pt.length < 2) :
    score_beach? positions beach_lat beach_lon 0 rho = some ⟨0, 0, 0, 0, none, 0⟩ := by
  unfold score_beach?
  rw [scoreLoop?_allShort beach_lat beach_lon 0 positions hshort initState,
    Option.map_some', finalizeScore_init]

/-- Witness for the amended C1. -/
theorem score_beach_zero_radius_no_valid_witness :
    (∀ pt ∈ [[PyVal.num 1]], pt.length < 2)
      ∧ score_beach? [[PyVal.num 1]] 0 0 0 1 = some ⟨0, 0, 0, 0, none, 0⟩ :=
  ⟨by simp, score_beach_zero_radius_no_valid [[PyVal.num 1]] 0 0 1 (by simp)⟩

/-! ## Scorer theorems: malformed entries -/

lemma scoreLoop?_filter (beach_lat beach_lon radius_km : ℝ) (l : List (List PyVal)) :
    ∀ st, scoreLoop? beach_lat beach_lon radius_km l st
      = scoreLoop? beach_lat beach_lon radius_km
          (l.filter (fun pt => decide (2 ≤ pt.length))) st := by
  induction l with
  | nil => intro st; rfl
  | cons pt ps ih =>
      intro st
      by_cases h : 2 ≤ pt.length
      · rw [List.filter_cons_of_pos (by simpa using h)]
        rw [scoreLoop?, scoreLoop?]
        cases stepEntry? beach_lat beach_lon radius_km st pt with
        | none => rfl
        | some st' => exact ih st'
      · push_neg at h
        rw [List.filter_cons_of_neg (by simpa using Nat.not_le.mpr h)]
        rw [scoreLoop?, stepEntry?_short beach_lat beach_lon radius_km st pt h]
        exact ih st

/-- C3 counterexample: an entry with two elements whose coordinates are
non-numeric (`float()` raises on them) is NOT skipped: `float(pt[1])`
at beaches.py line 113 raises and the whole scorer aborts. -/
theorem score_beach_non_numeric_raises :
    score_beach? [[PyVal.nonNum, PyVal.nonNum]] 0 0 3 1 = none := by
  unfold score_beach? scoreLoop? stepEntry? pyFloat
  simp

/-- C3 amended: entries with fewer than 2 elements are genuinely
skipped without error — removing them never changes the scorer's
outcome (raise or result).  Entries with non-numeric coordinates are
not skipped: they make the scorer raise
(`score_beach_non_numeric_raises`). -/
theorem score_beach_skips_short_entries (positions : List (List PyVal))
    (beach_lat beach_lon radius_km rho : ℝ) :
    score_beach? positions beach_lat beach_lon radius_km rho
      = score_beach? (positions.filter (fun pt => decide (2 ≤ pt.length)))
          beach_lat beach_lon radius_km rho := by
  unfold score_beach?
  rw [scoreLoop?_filter beach_lat beach_lon radius_km positions initState]

/-! ## Batch atomicity -/

/-- C9: the batch insert staged by `compute_beach_scores` is
all-or-nothing under the modelled SQLite transaction semantics: a
reader that observes the store after any prefix of the persistence
trace (an interruption at any point) sees either the previous committed
state unchanged or the previous state plus the entire new batch — never
a partial mix of the new rows. -/
theorem batch_insert_atomic (drift : List DriftRow) (t : String)
    (rows : List ScoreRow) (cnt : ℕ) (old : List ScoreRow) (n : ℕ)
    (hc : compute_beach_scores drift t = some (rows, cnt)) :
    committedAfter old ((persistTrace rows).take n) = old
      ∨ committedAfter old ((persistTrace rows).take n) = old ++ rows := by
  by_cases hn : n ≤ rows.length
  · left
    have htake : (persistTrace rows).take n = (rows.take n).map DBEvent.insertRow := by
      unfold persistTrace
      rw [List.take_append_of_le_length (by simpa using hn), ← List.map_take]
    rw [htake, committedAfter, foldl_insertRows]
  · right
    have htake : (persistTrace rows).take n = persistTrace rows := by
      apply List.take_of_length_le
      unfold persistTrace
      simp
      omega
    rw [htake]
    unfold committedAfter persistTrace
    rw [List.foldl_append, foldl_insertRows]
    simp [applyEvent]

/-- Witness for C9: the empty drift table yields the batch `[]`, and
any interruption point shows the old table. -/
theorem batch_insert_atomic_witness :
    compute_beach_scores [] "t0" = some ([], 0)
      ∧ (committedAfter ([] : List ScoreRow) ((persistTrace []).take 0) = []
          ∨ committedAfter ([] : List ScoreRow) ((persistTrace []).take 0) = [] ++ []) :=
  ⟨rfl, batch_insert_atomic [] "t0" [] 0 [] 0 rfl⟩

/-! ## Ratio scaling (C4) -/

lemma hav_a_same_zero : hav_a 0 0 0 0 = 0 := by
  simp [hav_a, radians]

lemma haversine_km_same_zero : haversine_km 0 0 0 0 = 0 := by
  simp [haversine_km, hav_a_same_zero]

/-- The loop state after one valid entry sitting exactly at the beach
centroid `(0, 0)` with `radius_km = 3`. -/
lemma scoreLoopT_centroid_single :
    scoreLoopT 0 0 3 [[PyVal.num 0, PyVal.num 0]] initState = ⟨1, 1, 1, some 0⟩ := by
  unfold scoreLoopT scoreLoopT stepEntryT initState updMin
  norm_num [haversine_km_same_zero, REGIONAL_SIGMA]

/-- C4 counterexample: one sample point at the beach centroid,
`radius_km = 3`, ratio 0.006 versus ratio 0.012.  Both runs store
`est_count = round(ratio, 2) = 0.01`, so doubling the ratio does not
double the stored `est_count` (0.01 ≠ 2 × 0.01): the final decimal
rounding (beaches.py line 124) breaks exact linearity. -/
theorem ratio_doubling_fails_after_rounding :
    (score_beach? [[PyVal.num 0, PyVal.num 0]] 0 0 3 (6 / 1000)).map ScoreResult.est_count
      = some (1 / 100)
    ∧ (score_beach? [[PyVal.num 0, PyVal.num 0]] 0 0 3 (2 * (6 / 1000))).map ScoreResult.est_count
      = some (1 / 100)
    ∧ ((1 : ℝ) / 100) ≠ 2 * (1 / 100) := by
  have hok : ∀ pt ∈ [[PyVal.num 0, PyVal.num 0]], EntryOk pt := by
    intro pt hpt
    simp only [List.mem_singleton] at hpt
    subst hpt
    exact Or.inr ⟨0, 0, [], rfl⟩
  have h1 := score_beach?_eq_some [[PyVal.num 0, PyVal.num 0]] 0 0 3 (6 / 1000) hok
    (by norm_num)
  have h2 := score_beach?_eq_some [[PyVal.num 0, PyVal.num 0]] 0 0 3 (2 * (6 / 1000)) hok
    (by norm_num)
  rw [h1, h2]
  unfold score_beachT
  rw [scoreLoopT_centroid_single]
  unfold finalizeScore
  refine ⟨?_, ?_, by norm_num⟩
  · simp only [Option.map_some']
    have : ((1 : ℕ) : ℝ) * (6 / 1000) = 6 / 1000 := by norm_num
    rw [this, pyRound_eq (6 / 1000) 2 1 (by norm_num) (by norm_num)]
    norm_num
  · simp only [Option.map_some']
    have : ((1 : ℕ) : ℝ) * (2 * (6 / 1000)) = 12 / 1000 := by norm_num
    rw [this, pyRound_eq (12 / 1000) 2 1 (by norm_num) (by norm_num)]
    norm_num

/-- C4 amended: doubling the ratio exactly doubles the pre-rounding
quantities — with ratio `2⬝rho` the stored `est_count`, `local_score`
and `regional_score` are the fixed-precision roundings of exactly twice
the unrounded ratio-`rho` values (`sample_count⬝rho`,
`local_gauss_sum⬝rho`, `reg_gauss_sum⬝rho`).  Exact doubling of the
stored, rounded outputs themselves can fail, as
`ratio_doubling_fails_after_rounding` shows. -/
theorem ratio_doubling_prescale (positions : List (List PyVal))
    (beach_lat beach_lon radius_km rho : ℝ)
    (hok : ∀ pt ∈ positions, EntryOk pt) (hrad : radius_km ≠ 0) :
    ∃ r r' : ScoreResult,
      score_beach? positions beach_lat beach_lon radius_km rho = some r
      ∧ score_beach? positions beach_lat beach_lon radius_km (2 * rho) = some r'
      ∧ r.est_count = pyRound
          (((scoreLoopT beach_lat beach_lon radius_km positions initState).sample_count : ℝ)
            * rho) 2
      ∧ r'.est_count = pyRound
          (2 * (((scoreLoopT beach_lat beach_lon radius_km positions initState).sample_count : ℝ)
            * rho)) 2
      ∧ r.local_score = pyRound
          ((scoreLoopT beach_lat beach_lon radius_km positions initState).local_gauss_sum * rho) 3
      ∧ r'.local_score = pyRound
          (2 * ((scoreLoopT beach_lat beach_lon radius_km positions initState).local_gauss_sum
            * rho)) 3
      ∧ r.regional_score = pyRound
          ((scoreLoopT beach_lat beach_lon radius_km positions initState).reg_gauss_sum * rho) 3
      ∧ r'.regional_score = pyRound
          (2 * ((scoreLoopT beach_lat beach_lon radius_km positions initState).reg_gauss_sum
            * rho)) 3 := by
  refine ⟨score_beachT positions beach_lat beach_lon radius_km rho,
    score_beachT positions beach_lat beach_lon radius_km (2 * rho),
    score_beach?_eq_some positions beach_lat beach_lon radius_km rho hok hrad,
    score_beach?_eq_some positions beach_lat beach_lon radius_km (2 * rho) hok hrad,
    rfl, ?_, rfl, ?_, rfl, ?_⟩
  · unfold score_beachT finalizeScore
    congr 1
    ring
  · unfold score_beachT finalizeScore
    congr 1
    ring
  · unfold score_beachT finalizeScore
    congr 1
    ring

/-- Witness for the amended C4: the empty sample with ratio 1. -/
theorem ratio_doubling_prescale_witness :
    (∀ pt ∈ ([] : List (List PyVal)), EntryOk pt) ∧ ((3 : ℝ) ≠ 0)
    ∧ (∃ r r' : ScoreResult,
        score_beach? [] 0 0 3 1 = some r
        ∧ score_beach? [] 0 0 3 (2 * 1) = some r'
        ∧ r.est_count = pyRound (((scoreLoopT 0 0 3 [] initState).sample_count : ℝ) * 1) 2
        ∧ r'.est_count = pyRound
            (2 * (((scoreLoopT 0 0 3 [] initState).sample_count : ℝ) * 1)) 2
        ∧ r.local_score = pyRound ((scoreLoopT 0 0 3 [] initState).local_gauss_sum * 1) 3
        ∧ r'.local_score = pyRound
            (2 * ((scoreLoopT 0 0 3 [] initState).local_gauss_sum * 1)) 3
        ∧ r.regional_score = pyRound ((scoreLoopT 0 0 3 [] initState).reg_gauss_sum * 1) 3
        ∧ r'.regional_score = pyRound
            (2 * ((scoreLoopT 0 0 3 [] initState).reg_gauss_sum * 1)) 3) :=
  ⟨by simp, by norm_num, ratio_doubling_prescale [] 0 0 3 1 (by simp) (by norm_num)⟩

/-! ## Moving a particle farther never raises the scores (C7) -/

lemma entryLocal_le_of_farther (beach_lat beach_lon radius_km x y x' y' : ℝ)
    (hrad : 0 < radius_km)
    (hfar : haversine_km beach_lat beach_lon y x < haversine_km beach_lat beach_lon y' x') :
    entryLocal beach_lat beach_lon radius_km [PyVal.num x', PyVal.num y']
      ≤ entryLocal beach_lat beach_lon radius_km [PyVal.num x, PyVal.num y] := by
  simp only [entryLocal]
  apply Real.exp_le_exp.mpr
  have hd : 0 ≤ haversine_km beach_lat beach_lon y x := haversine_km_nonneg _ _ _ _
  have h1 : haversine_km beach_lat beach_lon y x / radius_km
      ≤ haversine_km beach_lat beach_lon y' x' / radius_km := by
    rw [div_eq_mul_inv, div_eq_mul_inv]
    exact mul_le_mul_of_nonneg_right hfar.le (inv_nonneg.mpr hrad.le)
  have h2 : (haversine_km beach_lat beach_lon y x / radius_km) ^ 2
      ≤ (haversine_km beach_lat beach_lon y' x' / radius_km) ^ 2 :=
    pow_le_pow_left (by positivity) h1 2
  linarith

lemma entryReg_le_of_farther (beach_lat beach_lon x y x' y' : ℝ)
    (hfar : haversine_km beach_lat beach_lon y x < haversine_km beach_lat beach_lon y' x') :
    entryReg beach_lat beach_lon [PyVal.num x', PyVal.num y']
      ≤ entryReg beach_lat beach_lon [PyVal.num x, PyVal.num y] := by
  simp only [entryReg]
  apply Real.exp_le_exp.mpr
  have hs : (0 : ℝ) < REGIONAL_SIGMA := by norm_num [REGIONAL_SIGMA]
  have hd : 0 ≤ haversine_km beach_lat beach_lon y x := haversine_km_nonneg _ _ _ _
  have h1 : haversine_km beach_lat beach_lon y x / REGIONAL_SIGMA
      ≤ haversine_km beach_lat beach_lon y' x' / REGIONAL_SIGMA := by
    rw [div_eq_mul_inv, div_eq_mul_inv]
    exact mul_le_mul_of_nonneg_right hfar.le (inv_nonneg.mpr hs.le)
  have h2 : (haversine_km beach_lat beach_lon y x / REGIONAL_SIGMA) ^ 2
      ≤ (haversine_km beach_lat beach_lon y' x' / REGIONAL_SIGMA) ^ 2 :=
    pow_le_pow_left (by positivity) h1 2
  linarith

/-- C7: replacing one valid sample particle by a particle strictly
farther (in haversine distance) from the beach centroid, all other
inputs unchanged — with the spec's input constraints `radius_km > 0`
and `ratio ≥ 0` — never increases `local_score` or `regional_score`:
both runs succeed, and the farther particle's scores are at most the
original ones. -/
theorem farther_particle_not_higher (pre post : List (List PyVal))
    (beach_lat beach_lon radius_km rho x y x' y' : ℝ)
    (hokpre : ∀ pt ∈ pre, EntryOk pt) (hokpost : ∀ pt ∈ post, EntryOk pt)
    (hrad : 0 < radius_km) (hrho : 0 ≤ rho)
    (hfar : haversine_km beach_lat beach_lon y x < haversine_km beach_lat beach_lon y' x') :
    ∃ r r' : ScoreResult,
      score_beach? (pre ++ [PyVal.num x, PyVal.num y] :: post)
          beach_lat beach_lon radius_km rho = some r
      ∧ score_beach? (pre ++ [PyVal.num x', PyVal.num y'] :: post)
          beach_lat beach_lon radius_km rho = some r'
      ∧ r'.local_score ≤ r.local_score
      ∧ r'.regional_score ≤ r.regional_score := by
  have hok1 : ∀ pt ∈ pre ++ [PyVal.num x, PyVal.num y] :: post, EntryOk pt := by
    intro pt hpt
    rcases List.mem_append.mp hpt with h | h
    · exact hokpre pt h
    · rcases List.mem_cons.mp h with h | h
      · subst h; exact Or.inr ⟨x, y, [], rfl⟩
      · exact hokpost pt h
  have hok2 : ∀ pt ∈ pre ++ [PyVal.num x', PyVal.num y'] :: post, EntryOk pt := by
    intro pt hpt
    rcases List.mem_append.mp hpt with h | h
    · exact hokpre pt h
    · rcases List.mem_cons.mp h with h | h
      · subst h; exact Or.inr ⟨x', y', [], rfl⟩
      · exact hokpost pt h
  refine ⟨_, _,
    score_beach?_eq_some _ beach_lat beach_lon radius_km rho hok1 (ne_of_gt hrad),
    score_beach?_eq_some _ beach_lat beach_lon radius_km rho hok2 (ne_of_gt hrad),
    ?_, ?_⟩
  · simp only [score_beachT, finalizeScore]
    apply pyRound_mono
    apply mul_le_mul_of_nonneg_right _ hrho
    rw [scoreLoopT_local, scoreLoopT_local]
    simp only [List.map_append, List.map_cons, List.sum_append, List.sum_cons]
    have := entryLocal_le_of_farther beach_lat beach_lon radius_km x y x' y' hrad hfar
    linarith
  · simp only [score_beachT, finalizeScore]
    apply pyRound_mono
    apply mul_le_mul_of_nonneg_right _ hrho
    rw [scoreLoopT_reg, scoreLoopT_reg]
    simp only [List.map_append, List.map_cons, List.sum_append, List.sum_cons]
    have := entryReg_le_of_farther beach_lat beach_lon x y x' y' hfar
    linarith

lemma hav_a_antipodal : hav_a 0 0 0 180 = 1 := by
  unfold hav_a radians
  rw [show ((180 : ℝ) - 0) * π / 180 = π by ring,
    show ((0 : ℝ) - 0) * π / 180 = 0 by ring,
    show ((0 : ℝ)) * π / 180 = 0 by ring]
  simp [Real.sin_pi_div_two]

lemma haversine_farther_example : haversine_km 0 0 0 0 < haversine_km 0 0 0 180 := by
  rw [haversine_km_same_zero, haversine_km, hav_a_antipodal]
  rw [Real.sqrt_one, Real.arcsin_one]
  positivity

/-- Witness for C7: a particle at the beach centroid `(0,0)` versus its
antipode on the equator. -/
theorem farther_particle_not_higher_witness :
    (∀ pt ∈ ([] : List (List PyVal)), EntryOk pt)
    ∧ (0 : ℝ) < 3 ∧ (0 : ℝ) ≤ 1
    ∧ haversine_km 0 0 0 0 < haversine_km 0 0 0 180
    ∧ (∃ r r' : ScoreResult,
        score_beach? ([] ++ [PyVal.num 0, PyVal.num 0] :: []) 0 0 3 1 = some r
        ∧ score_beach? ([] ++ [PyVal.num 180, PyVal.num 0] :: []) 0 0 3 1 = some r'
        ∧ r'.local_score ≤ r.local_score
        ∧ r'.regional_score ≤ r.regional_score) :=
  ⟨by simp, by norm_num, by norm_num, haversine_farther_example,
   farther_particle_not_higher [] [] 0 0 3 1 0 0 180 0
     (by simp) (by simp) (by norm_num) (by norm_num) haversine_farther_example⟩

/-! ## Batch computer support lemmas (C8) -/

/-- The row inserted for one `(snapshot, beach)` pair, with the scorer
replaced by its total idealisation; `snapRows_eq_some` shows `snapRows`
produces exactly these rows when no exception occurs. -/
noncomputable def snapRowT (t m : String) (snap : DriftRow) (b : Beach) : ScoreRow :=
  let nP : ℤ := snap.n_particles.getD 0
  let act_frac : ℝ := snap.active_fraction.getD 0
  let n_active : ℤ := roundHalfEven ((nP : ℝ) * act_frac)
  let positions := snap.positions_json.getD []
  let n_sample := positions.length
  let rho : ℝ := if 0 < n_sample then (n_active : ℝ) / (n_sample : ℝ) else 0
  let s := score_beachT positions b.lat b.lon b.radius_km rho
  { computed_at := t
    simulated_at := m
    beach_name := b.name
    beach_lat := b.lat
    beach_lon := b.lon
    radius_km := b.radius_km
    day_offset := snap.day_offset
    sample_count := s.sample_count
    n_sample := n_sample
    n_active := n_active
    n_particles := nP
    est_count := s.est_count
    local_score := s.local_score
    regional_score := s.regional_score
    closest_km := s.closest_km
    density_km2 := s.density_km2
    risk_level := risk_label s.regional_score }

lemma mapM_eq_some_map {α β : Type} (l : List α) (f : α → Option β) (g : α → β)
    (h : ∀ a ∈ l, f a = some (g a)) : l.mapM f = some (l.map g) := by
  induction l with
  | nil => rfl
  | cons a as ih =>
      rw [List.mapM_cons, h a (List.mem_cons_self a as),
        ih (fun q hq => h q (List.mem_cons_of_mem a hq))]
      rfl

lemma BEACHES_radius_ne_zero (b : Beach) (hb : b ∈ BEACHES) : b.radius_km ≠ 0 := by
  fin_cases hb <;> norm_num

lemma BEACHES_names_nodup : (BEACHES.map Beach.name).Nodup := by
  have h : BEACHES.map Beach.name =
      ["Flamands", "Colombier", "Saint-Jean", "Lorient", "Grand_Cul-de-Sac",
       "Petit_Cul-de-Sac", "Toiny", "Gouverneur", "Grande_Saline", "Marigot"] := by
    simp [BEACHES]
  rw [h]
  decide

lemma countP_eq_one_of_nodup_mem {α : Type} [DecidableEq α] (l : List α) (a : α)
    (h1 : l.Nodup) (h2 : a ∈ l) : l.countP (fun q => decide (q = a)) = 1 := by
  induction l with
  | nil => exact absurd h2 (List.not_mem_nil a)
  | cons c t ih =>
      rcases List.mem_cons.mp h2 with rfl | hmem
      · rw [List.countP_cons]
        have hz : t.countP (fun q => decide (q = a)) = 0 :=
          List.countP_eq_zero.mpr (fun q hq => by
            simp only [decide_eq_true_eq]
            intro heq
            subst heq
            exact (List.nodup_cons.mp h1).1 hq)
        simp [hz]
      · rw [List.countP_cons]
        have hne : c ≠ a := by
          intro heq
          subst heq
          exact (List.nodup_cons.mp h1).1 hmem
        have := ih (List.nodup_cons.mp h1).2 hmem
        simp [this, hne]

lemma beaches_name_countP (b : Beach) (hb : b ∈ BEACHES) :
    BEACHES.countP (fun q => decide (q.name = b.name)) = 1 := by
  have h1 : BEACHES.countP (fun q => decide (q.name = b.name))
      = (BEACHES.map Beach.name).countP (fun s => decide (s = b.name)) := by
    rw [List.countP_map]
    rfl
  rw [h1]
  exact countP_eq_one_of_nodup_mem _ _ BEACHES_names_nodup (List.mem_map_of_mem _ hb)

lemma snapRows_eq_some (t m : String) (snap : DriftRow)
    (hok : ∀ pt ∈ snap.positions_json.getD [], EntryOk pt) :
    snapRows t m snap = some (BEACHES.map (snapRowT t m snap)) := by
  unfold snapRows
  apply mapM_eq_some_map
  intro b hb
  rw [score_beach?_eq_some _ _ _ _ _ hok (BEACHES_radius_ne_zero b hb)]
  rfl

lemma countP_eq_sum_ite {α : Type} (l : List α) (p : α → Bool) :
    l.countP p = (l.map (fun a => if p a then 1 else 0)).sum := by
  induction l with
  | nil => rfl
  | cons a as ih =>
      rw [List.countP_cons, List.map_cons, List.sum_cons, ih]
      by_cases h : p a = true
      · simp [h                           ]
        omega
      · simp [h]

/-- C8: when the latest simulation `m` has exactly one stored snapshot
per day offset for a nonempty subset S of the configured offsets
`[0,1,2,3]` (with well-formed position entries), `compute_beach_scores`
succeeds and inserts exactly one score row per (beach, offset ∈ S) pair
— `|S| × n_beaches` rows in total, all carrying the single batch
timestamp — and returns that row count; offsets outside S simply do not
appear among the inserted rows. -/
theorem compute_scores_offsets_subset (drift : List DriftRow) (t m : String)
    (hm : (drift.map (fun r => r.simulated_at)).max? = some m) (hne : m ≠ "")
    (hnon : selectedSnaps drift m ≠ [])
    (hnodup : ((selectedSnaps drift m).map (fun r => r.day_offset)).Nodup)
    (hok : ∀ r ∈ selectedSnaps drift m, ∀ pt ∈ r.positions_json.getD [], EntryOk pt) :
    ∃ rows : List ScoreRow,
      compute_beach_scores drift t = some (rows, rows.length)
      ∧ rows.length
          = (((selectedSnaps drift m).map (fun r => r.day_offset)).toFinset.card)
            * BEACHES.length
      ∧ (∀ row ∈ rows, row.computed_at = t)
      ∧ (∀ b ∈ BEACHES, ∀ d ∈ (selectedSnaps drift m).map (fun r => r.day_offset),
          (rows.filter (fun row =>
            decide (row.beach_name = b.name) && decide (row.day_offset = d))).length = 1)
      ∧ (∀ row ∈ rows,
          row.day_offset ∈ (selectedSnaps drift m).map (fun r => r.day_offset)) := by
  classical
  set sel := selectedSnaps drift m with hsel
  set snaps := List.insertionSort (fun a b => a.day_offset ≤ b.day_offset) sel with hsnaps
  have hperm : List.Perm snaps sel := List.perm_insertionSort _ sel
  have hoks : ∀ r ∈ snaps, ∀ pt ∈ r.positions_json.getD [], EntryOk pt :=
    fun r hr => hok r (hperm.mem_iff.mp hr)
  have hmapM : snaps.mapM (snapRows t m)
      = some (snaps.map (fun snap => BEACHES.map (snapRowT t m snap))) :=
    mapM_eq_some_map _ _ _ (fun snap hs => snapRows_eq_some t m snap (hoks snap hs))
  have hsnne : snaps ≠ [] := by
    intro h
    rw [h] at hperm
    exact hnon (List.perm_nil.mp hperm.symm)
  have hsne : snaps.isEmpty = false := List.isEmpty_eq_false.mpr hsnne
  set rows := (snaps.map (fun snap => BEACHES.map (snapRowT t m snap))).flatten with hrows
  have hcompute : compute_beach_scores drift t = some (rows, rows.length) := by
    unfold compute_beach_scores
    rw [hm]
    simp only []
    rw [if_neg hne, ← hsel, ← hsnaps, hsne]
    simp only [Bool.false_eq_true, if_false]
    rw [hmapM, Option.map_some', ← hrows]
  have hmem_struct : ∀ row ∈ rows, ∃ snap ∈ snaps, ∃ b ∈ BEACHES,
      row = snapRowT t m snap b := by
    intro row hrow
    rw [hrows, List.mem_flatten] at hrow
    obtain ⟨l, hl, hrl⟩ := hrow
    rw [List.mem_map] at hl
    obtain ⟨snap, hsnap, rfl⟩ := hl
    rw [List.mem_map] at hrl
    obtain ⟨b, hb, rfl⟩ := hrl
    exact ⟨snap, hsnap, b, hb, rfl⟩
  refine ⟨rows, hcompute, ?_, ?_, ?_, ?_⟩
  · -- row count = |S| × n_beaches
    rw [hrows, List.length_flatten, List.map_map]
    have h1 : (List.map (List.length ∘ fun snap => BEACHES.map (snapRowT t m snap)) snaps)
        = List.map (fun _ => BEACHES.length) snaps := by
      apply List.map_congr_left
      intro snap _
      simp
    rw [h1, List.map_const', List.sum_const_nat, hperm.length_eq]
    have h2 : (sel.map (fun r => r.day_offset)).toFinset.card = sel.length := by
      rw [List.toFinset_card_of_nodup hnodup, List.length_map]
    rw [h2]
  · -- one computed_at per batch
    intro row hrow
    obtain ⟨snap, _, b, _, rfl⟩ := hmem_struct row hrow
    rfl
  · -- exactly one row per (beach, offset in S)
    intro b hb d hd
    rw [← List.countP_eq_length_filter, hrows, List.countP_flatten, List.map_map]
    have hinner : (List.countP (fun row =>
          decide (row.beach_name = b.name) && decide (row.day_offset = d))
          ∘ fun snap => BEACHES.map (snapRowT t m snap))
        = fun snap => if decide (snap.day_offset = d) = true then 1 else 0 := by
      funext snap
      simp only [Function.comp_apply, List.countP_map]
      by_cases hsd : snap.day_offset = d
      · rw [if_pos (by simp [hsd])]
        have : ((fun row => decide (row.beach_name = b.name)
              && decide (row.day_offset = d)) ∘ snapRowT t m snap)
            = fun q => decide (q.name = b.name) && decide (snap.day_offset = d) := rfl
        rw [this]
        have hc : BEACHES.countP
            (fun q => decide (q.name = b.name) && decide (snap.day_offset = d))
            = BEACHES.countP (fun q => decide (q.name = b.name)) :=
          List.countP_congr (fun q _ => by simp [hsd])
        rw [hc]
        exact beaches_name_countP b hb
      · rw [if_neg (by simp [hsd])]
        apply List.countP_eq_zero.mpr
        intro q _ hcon
        have hcon2 : (decide ((snapRowT t m snap q).beach_name = b.name)
            && decide ((snapRowT t m snap q).day_offset = d)) = true := hcon
        rw [Bool.and_eq_true, decide_eq_true_eq, decide_eq_true_eq] at hcon2
        exact hsd hcon2.2
    rw [hinner, ← countP_eq_sum_ite]
    have hcp : snaps.countP (fun snap => decide (snap.day_offset = d))
        = (snaps.map (fun r => r.day_offset)).countP (fun o => decide (o = d)) := by
      rw [List.countP_map]
      rfl
    rw [hcp, ((hperm.map (fun r => r.day_offset)).countP_eq _)]
    exact countP_eq_one_of_nodup_mem _ _ hnodup hd
  · -- offsets outside S are absent
    intro row hrow
    obtain ⟨snap, hsnap, b, _, rfl⟩ := hmem_struct row hrow
    have : (snapRowT t m snap b).day_offset = snap.day_offset := rfl
    rw [this]
    exact (hperm.map (fun r => r.day_offset)).mem_iff.mp
      (List.mem_map_of_mem _ hsnap)

/-- A concrete one-row drift table: simulation `"s"`, day offset 0,
empty (but present and parseable) positions. -/
noncomputable def witnessSnap : DriftRow :=
  { simulated_at := "s", day_offset := 0, positions_json := some [],
    n_particles := some 0, active_fraction := some 0 }

/-- Concrete drift table for the partial-coverage witness. -/
noncomputable def witnessDrift : List DriftRow := [witnessSnap]

lemma witness_selected : selectedSnaps witnessDrift "s" = [witnessSnap] := by
  simp [selectedSnaps, witnessDrift, DAY_OFFSETS, witnessSnap, List.filter]

/-- Witness for C8: one stored snapshot (offset 0 only) out of the four
requested offsets. -/
theorem compute_scores_offsets_subset_witness :
    (List.map (fun r => r.simulated_at) witnessDrift).max? = some "s"
    ∧ "s" ≠ ""
    ∧ selectedSnaps witnessDrift "s" ≠ []
    ∧ ((selectedSnaps witnessDrift "s").map (fun r => r.day_offset)).Nodup
    ∧ (∀ r ∈ selectedSnaps witnessDrift "s", ∀ pt ∈ r.positions_json.getD [], EntryOk pt)
    ∧ (∃ rows : List ScoreRow,
        compute_beach_scores witnessDrift "t0" = some (rows, rows.length)
        ∧ rows.length
            = (((selectedSnaps witnessDrift "s").map (fun r => r.day_offset)).toFinset.card)
              * BEACHES.length
        ∧ (∀ row ∈ rows, row.computed_at = "t0")
        ∧ (∀ b ∈ BEACHES, ∀ d ∈ (selectedSnaps witnessDrift "s").map (fun r => r.day_offset),
            (rows.filter (fun row =>
              decide (row.beach_name = b.name) && decide (row.day_offset = d))).length = 1)
        ∧ (∀ row ∈ rows,
            row.day_offset ∈ (selectedSnaps witnessDrift "s").map (fun r => r.day_offset))) := by
  have h1 : (List.map (fun r => r.simulated_at) witnessDrift).max? = some "s" := rfl
  have h2 : "s" ≠ "" := by simp
  have h3 : selectedSnaps witnessDrift "s" ≠ [] := by
    rw [witness_selected]
    simp
  have h4 : ((selectedSnaps witnessDrift "s").map (fun r => r.day_offset)).Nodup := by
    rw [witness_selected]
    simp
  have h5 : ∀ r ∈ selectedSnaps witnessDrift "s",
      ∀ pt ∈ r.positions_json.getD [], EntryOk pt := by
    rw [witness_selected]
    intro r hr
    rw [List.mem_singleton] at hr
    subst hr
    intro pt hpt
    simp [witnessSnap] at hpt
  exact ⟨h1, h2, h3, h4, h5,
    compute_scores_offsets_subset witnessDrift "t0" "s" h1 h2 h3 h4 h5⟩

end Sargassum
